import Mathlib

set_option maxRecDepth 100000

/-!
Verification of the period-over-period metric decomposition engine of the
Falk repository, a shallow embedding of `src/falk/tools/calculations.py`
and the `decompose_metric_change` orchestrator of
`src/falk/tools/warehouse.py`.

Modelling conventions, used throughout:

* Python floats are modelled as exact rationals (`ℚ`).  `round(x, n)` is
  modelled by `pyRound n` (decimal round-half-to-even on the exact value);
  Python's binary-float tie anomalies are not modelled, and no claim here
  depends on tie behaviour.
* A Python dict row is an association list `Row`; `Row.get` returns the
  value of the *last* entry with the key, so `row ++ [(k, v)]` has exactly
  the lookup semantics of Python's `{**row, k: v}` (later write wins,
  other keys untouched).
* `Value` is the payload type: numbers (ints, floats and bools, which are
  numeric to Python's `float()`) are `Value.num`, strings `Value.str`,
  `None` is `Value.null`.  Strings that Python's `float()` would parse are
  represented as `Value.num` directly, so `safeFloat` sends `Value.str`
  and `Value.null` to `0` exactly as `_safe_float` does for non-numeric
  input, and `floatOfValue` fails on them exactly as `float()` raises.
* `vstr` stands in for Python's `str()` in group keys: it is injective on
  the values that actually occur, which is all the key matching needs.
* Dates are proleptic Gregorian; `toRD` is Python's `date.toordinal`
  (`0001-01-01` has ordinal 1).  `ℤ` division `/` here is floored for the
  positive divisors used, matching Python `//`, and `%` matches Python `%`.
  Python's `date.MINYEAR`/`MAXYEAR` overflow is not modelled: the
  embedding extends the calendar arithmetic past those bounds.
-/

namespace Falk

/-- A dict value: numeric (Python int/float/bool), string, or `None`. -/
inductive Value where
  | num (q : ℚ)
  | str (s : String)
  | null
deriving DecidableEq

/-- A Python dict row as an association list; lookups take the last write. -/
abbrev Row := List (String × Value)

/-- `Row.get r k` is Python `r.get(k)`: the value of the last entry with key
`k`, or `none`. -/
def Row.get : Row → String → Option Value
  | [], _ => none
  | (k', v) :: rest, k =>
    match Row.get rest k with
    | some v' => some v'
    | none => if k' = k then some v else none

/-- Python `r.get(k, d)`. -/
def Row.getD (r : Row) (k : String) (d : Value) : Value :=
  (Row.get r k).getD d

/-- Python `k in r`. -/
def Row.has (r : Row) (k : String) : Bool :=
  r.any (fun p => p.1 = k)

/-- `_safe_float` on a `Value`: numeric payload, else `0.0`. -/
def safeFloatV : Value → ℚ
  | .num q => q
  | _ => 0

/-- `_safe_float(r.get(k))`: missing or non-numeric coerces to `0.0`. -/
def safeFloat (v : Option Value) : ℚ :=
  safeFloatV (v.getD .null)

/-- Python `float(v)`: fails (raises) on `None` and non-numeric strings. -/
def floatOfValue : Value → Option ℚ
  | .num q => some q
  | _ => none

/-- Stand-in for Python `str()` as used in group keys (`str(None)` is
`"None"`); `toString` on `ℚ` is an injective stand-in for float repr. -/
def vstr : Value → String
  | .num q => toString q
  | .str s => s
  | .null => "None"

/-- Round-half-to-even to an integer, Python's `round(x)` on exact values. -/
def pyRoundInt (x : ℚ) : ℤ :=
  if x - ⌊x⌋ < 1/2 then ⌊x⌋
  else if 1/2 < x - ⌊x⌋ then ⌊x⌋ + 1
  else if ⌊x⌋ % 2 = 0 then ⌊x⌋ else ⌊x⌋ + 1

/-- Python `round(x, n)` on exact values. -/
def pyRound (n : ℕ) (x : ℚ) : ℚ :=
  (pyRoundInt (x * 10 ^ n) : ℚ) / 10 ^ n

/-! ## `calculations.py` -/

/-- `compute_shares`: add `share_pct` (percentage of total) to each row. -/
def compute_shares (data : List Row) (metric : String) : List Row :=
  let total := (data.map (fun r => safeFloat (Row.get r metric))).sum
  if total = 0 then
    data.map (fun r => r ++ [("share_pct", Value.num 0)])
  else
    data.map (fun r =>
      r ++ [("share_pct", Value.num (pyRound 1 (safeFloat (Row.get r metric) / total * 100)))])

/-- The `_key` helper of `compute_deltas`:
`"|".join(str(row.get(k, "")) for k in group_keys)`. -/
def rowKey (groupKeys : List String) (r : Row) : String :=
  String.intercalate "|" (groupKeys.map (fun k => vstr (Row.getD r k (.str ""))))

/-- `prev_map.get(key, 0.0)` where `prev_map` is
`{_key(r): _safe_float(r.get(metric)) for r in previous}` — on duplicate
keys the dict keeps the last row's value, hence the reverse search. -/
def prevLookup (previous : List Row) (metric : String) (groupKeys : List String)
    (key : String) : ℚ :=
  match previous.reverse.find? (fun r => rowKey groupKeys r = key) with
  | some r => safeFloat (Row.get r metric)
  | none => 0

/-- `compute_deltas`: one output record per `current` row, in order. -/
def compute_deltas (current previous : List Row) (metric : String)
    (groupKeys : List String) : List Row :=
  current.map (fun row =>
    let curVal := safeFloat (Row.get row metric)
    let prevVal := prevLookup previous metric groupKeys (rowKey groupKeys row)
    let delta := curVal - prevVal
    let pct : Value := if prevVal ≠ 0 then .num (pyRound 1 (delta / prevVal * 100)) else .null
    (groupKeys.map (fun k => (k, Row.getD row k .null)) ++
      [("current", Value.num curVal), ("previous", Value.num prevVal),
       ("delta", Value.num delta), ("pct_change", pct)] : Row))

/-- `for idx, item in enumerate(enriched, i): item["impact_rank"] = idx`. -/
def addImpactRanks (i : ℕ) : List Row → List Row
  | [] => []
  | r :: rs => (r ++ [("impact_rank", Value.num i)]) :: addImpactRanks (i + 1) rs

/-- Sort key of `calculate_variance_explained`:
`abs(x.get("variance_explained", 0))` (the field is always numeric there). -/
def veSortKey (r : Row) : ℚ :=
  |safeFloatV (Row.getD r "variance_explained" (.num 0))|

/-- `calculate_variance_explained`.  `List.insertionSort` with this total
preorder is a stable sort, hence agrees with Python's
`sort(key=..., reverse=True)`. -/
def calculate_variance_explained (total_delta : ℚ) (dimension_deltas : List Row)
    (metric_key : String) : List Row :=
  if |total_delta| < 1/100 then
    dimension_deltas.map (fun d =>
      d ++ [("variance_explained", Value.num 0), ("variance_pct", Value.num 0),
            ("impact_rank", Value.num 0)])
  else
    let enriched := dimension_deltas.map (fun d =>
      let delta := safeFloatV (Row.getD d metric_key (.num 0))
      let variance_pct := if total_delta ≠ 0 then delta / total_delta * 100 else 0
      d ++ [("variance_explained", Value.num delta), ("variance_pct", Value.num variance_pct)])
    addImpactRanks 1 (List.insertionSort (fun a b => veSortKey b ≤ veSortKey a) enriched)

/-- A `dimension_impacts` entry.  `rank_dimensions_by_impact`'s main branch
carries a `total_movement` key; its near-zero branch and the orchestrator's
own entries do not, hence the `Option`. -/
structure ImpactEntry where
  dimension : String
  variance_explained_pct : ℚ
  impact_score : ℚ
  total_movement : Option ℚ
deriving DecidableEq

/-- The descending-score order used on `dimension_impacts`. -/
def impactDesc (a b : ImpactEntry) : Prop :=
  b.impact_score ≤ a.impact_score

instance : DecidableRel impactDesc := fun a b =>
  inferInstanceAs (Decidable (b.impact_score ≤ a.impact_score))

instance : IsTotal ImpactEntry impactDesc := ⟨fun a b => le_total b.impact_score a.impact_score⟩

instance : IsTrans ImpactEntry impactDesc := ⟨fun _ _ _ h h' => le_trans h' h⟩

/-- Python `list.sort(key=lambda x: x["impact_score"], reverse=True)`:
`List.insertionSort` with this total preorder is stable, like Python's sort. -/
def sortByImpactDesc (l : List ImpactEntry) : List ImpactEntry :=
  List.insertionSort impactDesc l

/-- `rank_dimensions_by_impact`. -/
def rank_dimensions_by_impact (current previous : List Row) (metric : String)
    (dimensions : List String) (total_delta : ℚ) : List ImpactEntry :=
  if |total_delta| < 1/100 then
    dimensions.map (fun d => ⟨d, 0, 0, none⟩)
  else
    let impacts := dimensions.filterMap (fun dim =>
      if current.any (fun row => Row.has row dim) then
        let deltas := compute_deltas current previous metric [dim]
        let total_movement := (deltas.map (fun d => |safeFloatV (Row.getD d "delta" (.num 0))|)).sum
        let variance_pct := if total_delta ≠ 0 then total_movement / |total_delta| * 100 else 0
        let impact_score := min variance_pct 100
        some ⟨dim, pyRound 1 variance_pct, pyRound 1 impact_score, some (pyRound 2 total_movement)⟩
      else none)
    sortByImpactDesc impacts

/-! ## Dates (`period_date_ranges`)

`Date` is year/month/day; `toRD` is Python's `date.toordinal` on the
proleptic Gregorian calendar, `weekday` Python's `date.weekday()`
(Monday = 0), and `addDays` is `date + timedelta(days=n)` realised by
iterating single-day steps. -/

structure Date where
  year : ℤ
  month : ℕ
  day : ℕ
deriving DecidableEq

/-- Python `y % 4 == 0 and (y % 100 != 0 or y % 400 == 0)`
(`%` on `ℤ` agrees with Python for these positive moduli). -/
def isLeap (y : ℤ) : Bool :=
  decide (y % 4 = 0 ∧ (y % 100 ≠ 0 ∨ y % 400 = 0))

/-- Days in a month of the given year (months outside 1..12 never occur). -/
def daysInMonth (y : ℤ) (m : ℕ) : ℕ :=
  if m = 2 then (if isLeap y then 29 else 28)
  else if m = 4 ∨ m = 6 ∨ m = 9 ∨ m = 11 then 30
  else 31

/-- Days strictly before month `m` in a year with leap flag `leap`. -/
def daysBeforeMonth (leap : Bool) (m : ℕ) : ℕ :=
  (match m with
    | 1 => 0 | 2 => 31 | 3 => 59 | 4 => 90 | 5 => 120 | 6 => 151
    | 7 => 181 | 8 => 212 | 9 => 243 | 10 => 273 | 11 => 304 | _ => 334) +
  (if leap ∧ 3 ≤ m then 1 else 0)

/-- Python `date.toordinal`: `0001-01-01` is day 1.  `ℤ` `/` is floored for
these positive divisors, matching Python `//`. -/
def toRD (d : Date) : ℤ :=
  365 * (d.year - 1) + (d.year - 1) / 4 - (d.year - 1) / 100 + (d.year - 1) / 400 +
    (daysBeforeMonth (isLeap d.year) d.month : ℤ) + (d.day : ℤ)

/-- A structurally valid calendar date. -/
def ValidDate (d : Date) : Prop :=
  1 ≤ d.month ∧ d.month ≤ 12 ∧ 1 ≤ d.day ∧ d.day ≤ daysInMonth d.year d.month

instance : DecidablePred ValidDate := fun d => by
  unfold ValidDate; infer_instance

/-- The calendar successor of a date. -/
def nextDay (d : Date) : Date :=
  if d.day < daysInMonth d.year d.month then ⟨d.year, d.month, d.day + 1⟩
  else if d.month < 12 then ⟨d.year, d.month + 1, 1⟩
  else ⟨d.year + 1, 1, 1⟩

/-- The calendar predecessor of a date. -/
def prevDay (d : Date) : Date :=
  if 1 < d.day then ⟨d.year, d.month, d.day - 1⟩
  else if 1 < d.month then ⟨d.year, d.month - 1, daysInMonth d.year (d.month - 1)⟩
  else ⟨d.year - 1, 12, 31⟩

/-- Python `d + timedelta(days=n)` (also subtraction, for negative `n`). -/
def addDays (d : Date) (n : ℤ) : Date :=
  if 0 ≤ n then nextDay^[n.toNat] d else prevDay^[(-n).toNat] d

/-- Python `(a - b).days` for two dates. -/
def dateSub (a b : Date) : ℤ :=
  toRD a - toRD b

/-- Python `date.weekday()`: Monday is 0. -/
def weekday (d : Date) : ℕ :=
  ((toRD d - 1) % 7).toNat

/-- The `ValueError` message `period_date_ranges` raises on a bad token. -/
def unsupportedPeriodMessage (period : String) : String :=
  "Unsupported period '" ++ (period ++ "'. Use 'week', 'month', or 'quarter'.")

/-- `period_date_ranges(period, reference)`, returning
`((cur_start, cur_end), (prev_start, prev_end))` as dates (the source
returns their `isoformat()` strings, an injective rendering), or the
`ValueError` it raises for an unsupported token. -/
def period_date_ranges (period : String) (today : Date) :
    Except String ((Date × Date) × (Date × Date)) :=
  if period = "week" then
    let curStart := addDays today (-(weekday today : ℤ))
    let prevStart := addDays curStart (-7)
    let prevEnd := addDays today (-7)
    .ok ((curStart, today), (prevStart, prevEnd))
  else if period = "month" then
    let curStart : Date := ⟨today.year, today.month, 1⟩
    let prevStart : Date :=
      if today.month = 1 then ⟨today.year - 1, 12, 1⟩ else ⟨today.year, today.month - 1, 1⟩
    let daysIn := dateSub today curStart
    let prevEnd := addDays prevStart daysIn
    .ok ((curStart, today), (prevStart, prevEnd))
  else if period = "quarter" then
    let qMonth := (today.month - 1) / 3 * 3 + 1
    let curStart : Date := ⟨today.year, qMonth, 1⟩
    let prevStart : Date :=
      if qMonth ≤ 3 then ⟨today.year - 1, qMonth + 9, 1⟩ else ⟨today.year, qMonth - 3, 1⟩
    let daysIn := dateSub today curStart
    let prevEnd := addDays prevStart daysIn
    .ok ((curStart, today), (prevStart, prevEnd))
  else
    .error (unsupportedPeriodMessage period)

/-! ## `warehouse.py`: `decompose_metric_change`

The warehouse itself is the external collaborator: a `QueryFn` stands for
`run_warehouse_query` with the core, the metric and the caller's base
filters already fixed, so its arguments are the `dimensions` list and the
date window merged into the filters.  `decompose_metric_change` calls
`period_date_ranges(period)` with `reference = date.today()`; `today` is
that hidden input, passed explicitly. -/

/-- Result of `run_warehouse_query`. -/
structure WarehouseQueryResult where
  ok : Bool
  data : List Row
  error : Option String
deriving DecidableEq

/-- `run_warehouse_query` with core, metric and base filters fixed:
arguments are the grouping dimensions and the date window. -/
abbrev QueryFn := List String → Date × Date → WarehouseQueryResult

/-- `MetricDecompositionResult` (the breakdown rows keep the dict shape). -/
structure MetricDecompositionResult where
  ok : Bool
  metric : String
  period : String
  total_delta : ℚ
  total_pct_change : Option ℚ
  current_value : ℚ
  previous_value : ℚ
  dimension_impacts : List ImpactEntry
  top_dimension : Option String
  top_dimension_breakdown : List Row
  error : Option String
deriving DecidableEq

/-- The all-zero failure record every error path of
`decompose_metric_change` returns. -/
def errResult (metric period e : String) : MetricDecompositionResult :=
  ⟨false, metric, period, 0, none, 0, 0, [], none, [], some e⟩

/-- How Python's f-string renders `result.error` inside the
`"Failed to query ..."` messages (`None` when absent). -/
def optionStr : Option String → String
  | some s => s
  | none => "None"

/-- Stand-in for `str(e)` of the `TypeError`/`ValueError` that Python's
`float()` raises on `None` or a non-numeric string (exact text abstracted). -/
def floatErrorMessage : String :=
  "float() argument must be a string or a real number"

/-- The dimension list used: the caller's, or the catalog's non-time
dimensions (`none` models the metric being in no semantic model). -/
def resolveDimensions (dims? : Option (List String))
    (catalog : Option (List (String × Bool))) : Option (List String) :=
  match dims? with
  | some ds => some ds
  | none => catalog.map (fun c => (c.filter (fun p => !p.2)).map Prod.fst)

/-- `if cur_result.ok and cur_result.data:` — the per-dimension fetch is
kept only when it succeeds with at least one row. -/
def fetchedData (q : QueryFn) (dims : List String) (w : Date × Date) : Option (List Row) :=
  let res := q dims w
  if res.ok = true ∧ res.data ≠ [] then some res.data else none

/-- `float(data[0].get(metric, 0))` on a total query's rows. -/
def totalOf (data : List Row) (metric : String) : Option ℚ :=
  floatOfValue (Row.getD (data.headD []) metric (.num 0))

/-- The top dimension's value-level breakdown: recompute its deltas, enrich
via `calculate_variance_explained`, keep `|variance_pct| ≥ threshold*100`,
truncate.  The source reads the rows stored in `current_by_dims` /
`previous_by_dims`; `q` is a pure function, so refetching returns the same
rows (the `getD []` default is unreachable for a ranked dimension).  The
source applies `round`/`abs` to these fields directly, which would raise on
a non-numeric value; on this path they are always numeric (built by
`compute_deltas`), so the `safeFloatV` coercion agrees. -/
def topBreakdown (q : QueryFn) (metric : String) (cw pw : Date × Date) (t : String)
    (total_delta : ℚ) (maxItems : ℕ) (minThresh : ℚ) : List Row :=
  let cData := (fetchedData q [t] cw).getD []
  let pData := (fetchedData q [t] pw).getD []
  let deltas := compute_deltas cData pData metric [t]
  let enriched := calculate_variance_explained total_delta deltas "delta"
  let significant := (enriched.filter (fun d =>
      minThresh * 100 ≤ |safeFloatV (Row.getD d "variance_pct" (.num 0))|)).map (fun d =>
    ([("dimension_value", Row.getD d t .null),
      ("current", Value.num (pyRound 2 (safeFloatV (Row.getD d "current" (.num 0))))),
      ("previous", Value.num (pyRound 2 (safeFloatV (Row.getD d "previous" (.num 0))))),
      ("delta", Value.num (pyRound 2 (safeFloatV (Row.getD d "delta" (.num 0))))),
      ("pct_change", Row.getD d "pct_change" .null),
      ("contribution_pct", Value.num (pyRound 1 (safeFloatV (Row.getD d "variance_pct" (.num 0))))),
      ("impact_rank", Row.getD d "impact_rank" .null)] : Row))
  significant.take maxItems

/-- The pipeline after both totals have been read: short-circuit on a
near-zero change, else rank the dimensions and break down the top one.
The source builds `current_by_dims`/`previous_by_dims` dicts in a first
loop and ranks in a second; with a pure `q` the stored entry for `dim` is
exactly `fetchedData q [dim] _`, so the two loops fuse into one
`filterMap` over the same `dimensions` order.  `max(..., default=0.0)`
over the nonnegative `abs` values is the `foldl max 0`. -/
def decomposeCore (q : QueryFn) (metric period : String) (cw pw : Date × Date)
    (dims : List String) (cv pv : ℚ) (maxItems : ℕ) (minThresh : ℚ) :
    MetricDecompositionResult :=
  let total_delta := cv - pv
  let total_pct_change := if pv ≠ 0 then some (pyRound 1 (total_delta / pv * 100)) else none
  if |total_delta| < 1/100 then
    ⟨true, metric, period, 0, some 0, cv, pv, [], none, [], none⟩
  else
    let impacts := sortByImpactDesc (dims.filterMap (fun dim =>
      match fetchedData q [dim] cw, fetchedData q [dim] pw with
      | some cData, some pData =>
        let deltas := compute_deltas cData pData metric [dim]
        let enriched := calculate_variance_explained total_delta deltas "delta"
        let maxAbsDelta := (enriched.map (fun d => |safeFloatV (Row.getD d "delta" (.num 0))|)).foldl max 0
        let primary_pct := if total_delta ≠ 0 then maxAbsDelta / |total_delta| * 100 else 0
        some ⟨dim, pyRound 1 (min primary_pct 100), pyRound 1 (min primary_pct 100), none⟩
      | _, _ => none))
    let top := impacts.head?.map ImpactEntry.dimension
    let breakdown :=
      match top with
      | some t => if t = "" then [] else topBreakdown q metric cw pw t total_delta maxItems minThresh
      | none => []
    ⟨true, metric, period, pyRound 2 total_delta, total_pct_change,
      pyRound 2 cv, pyRound 2 pv, impacts, top, breakdown, none⟩

/-- `decompose_metric_change`.  Every Python exception on this path (the
`ValueError` of `period_date_ranges`, `float()` on a non-numeric total) is
caught by the function's `except` clause and becomes `errResult`; the
embedding is total, so no exception escapes. -/
def decompose_metric_change (q : QueryFn) (today : Date) (metric period : String)
    (dims? : Option (List String)) (catalog : Option (List (String × Bool)))
    (maxItems : ℕ) (minThresh : ℚ) : MetricDecompositionResult :=
  match period_date_ranges period today with
  | .error e => errResult metric period e
  | .ok (cw, pw) =>
    match resolveDimensions dims? catalog with
    | none => errResult metric period ("Metric '" ++ (metric ++ "' not found in any semantic model"))
    | some dims =>
      if dims = [] then errResult metric period "No dimensions available for decomposition"
      else
        let curRes := q [] cw
        if curRes.ok = false ∨ curRes.data = [] then
          errResult metric period ("Failed to query current period: " ++ optionStr curRes.error)
        else
          let prevRes := q [] pw
          if prevRes.ok = false ∨ prevRes.data = [] then
            errResult metric period ("Failed to query previous period: " ++ optionStr prevRes.error)
          else
            match totalOf curRes.data metric, totalOf prevRes.data metric with
            | some cv, some pv => decomposeCore q metric period cw pw dims cv pv maxItems minThresh
            | _, _ => errResult metric period floatErrorMessage

/-! ## Derived quantities and spec-side definitions used by the claims -/

/-- Sum of the `variance_explained` fields of a record list. -/
def varianceExplainedSum (l : List Row) : ℚ :=
  (l.map (fun r => safeFloatV (Row.getD r "variance_explained" (.num 0)))).sum

/-- Sum of the `share_pct` fields of a row list. -/
def sharePctSum (l : List Row) : ℚ :=
  (l.map (fun r => safeFloat (Row.get r "share_pct"))).sum

/-- The per-dimension row sets the orchestrator's ranking loop works from:
each candidate dimension paired with its fetched current and previous rows,
kept only when both fetches succeed with data. -/
def fetchedPerDim (q : QueryFn) (dims : List String) (cw pw : Date × Date) :
    List (String × List Row × List Row) :=
  dims.filterMap (fun d =>
    match fetchedData q [d] cw, fetchedData q [d] pw with
    | some c, some p => some (d, c, p)
    | _, _ => none)

/-- The ranking `decompose_metric_change` actually performs, stated
independently of the orchestrator (the amended form of the claim): each
dimension with data in both windows is scored by its largest single
per-value `|delta|` as a percentage of `|total_delta|`, capped at `100`,
rounded to one decimal, used for `variance_explained_pct` and
`impact_score` alike, with no `total_movement` field; sorted descending
by `impact_score`. -/
def primaryImpactRanking (perDim : List (String × List Row × List Row))
    (metric : String) (total_delta : ℚ) : List ImpactEntry :=
  sortByImpactDesc (perDim.map (fun e =>
    let deltas := compute_deltas e.2.1 e.2.2 metric [e.1]
    let maxAbs := (deltas.map (fun d => |safeFloatV (Row.getD d "delta" (.num 0))|)).foldl max 0
    let pp := maxAbs / |total_delta| * 100
    ⟨e.1, pyRound 1 (min pp 100), pyRound 1 (min pp 100), none⟩))

/-! ## Lookup lemmas -/

theorem Row.get_append (l₁ l₂ : Row) (k : String) :
    Row.get (l₁ ++ l₂) k = (Row.get l₂ k).or (Row.get l₁ k) := by
  induction l₁ with
  | nil => simp [Row.get]
  | cons p l₁ ih =>
    obtain ⟨k', v⟩ := p
    show (match Row.get (l₁ ++ l₂) k with
      | some v' => some v'
      | none => if k' = k then some v else none) = _
    rw [ih]
    show _ = (Row.get l₂ k).or (match Row.get l₁ k with
      | some v' => some v'
      | none => if k' = k then some v else none)
    cases h₂ : Row.get l₂ k <;> cases h₁ : Row.get l₁ k <;> simp [Option.or]

theorem Row.get_append_single (r : Row) (k k' : String) (v : Value) :
    Row.get (r ++ [(k', v)]) k = if k' = k then some v else Row.get r k := by
  rw [Row.get_append]
  by_cases h : k' = k <;> simp [Row.get, h, Option.or]

theorem Row.get_append_single_ne (r : Row) (k k' : String) (v : Value) (h : k' ≠ k) :
    Row.get (r ++ [(k', v)]) k = Row.get r k := by
  rw [Row.get_append_single, if_neg h]

/-! ## Rounding lemmas -/

theorem pyRoundInt_cases (x : ℚ) : pyRoundInt x = ⌊x⌋ ∨ pyRoundInt x = ⌊x⌋ + 1 := by
  unfold pyRoundInt
  split
  · exact Or.inl rfl
  · split
    · exact Or.inr rfl
    · split
      · exact Or.inl rfl
      · exact Or.inr rfl

theorem abs_pyRoundInt_sub (x : ℚ) : |(pyRoundInt x : ℚ) - x| ≤ 1/2 := by
  have hfl : (⌊x⌋ : ℚ) ≤ x := Int.floor_le x
  have hfu : x < ⌊x⌋ + 1 := Int.lt_floor_add_one x
  unfold pyRoundInt
  split
  · rw [abs_le]; constructor <;> [linarith; linarith]
  · rename_i h₁
    push_neg at h₁
    split
    · rename_i h₂
      push_cast
      rw [abs_le]; constructor <;> [linarith; linarith]
    · rename_i h₂
      push_neg at h₂
      have hx : x - ⌊x⌋ = 1/2 := le_antisymm h₂ h₁
      split <;> (push_cast; rw [abs_le]; constructor <;> linarith)

theorem pyRoundInt_le_of_le {x : ℚ} {c : ℤ} (h : x ≤ c) : pyRoundInt x ≤ c := by
  have hfl : ⌊x⌋ ≤ c := by
    have := Int.floor_le_floor h
    simpa using this
  rcases eq_or_lt_of_le hfl with heq | hlt
  · have hxf : x ≤ ⌊x⌋ := by
      rw [heq]; exact_mod_cast h
    have : x - ⌊x⌋ < 1/2 := by
      have : x - ⌊x⌋ ≤ 0 := by linarith
      linarith
    unfold pyRoundInt
    rw [if_pos this]
    exact hfl
  · rcases pyRoundInt_cases x with hr | hr <;> rw [hr] <;> omega

theorem le_pyRoundInt_of_le {c : ℤ} {x : ℚ} (h : (c : ℚ) ≤ x) : c ≤ pyRoundInt x := by
  have hfl : c ≤ ⌊x⌋ := Int.le_floor.mpr h
  rcases pyRoundInt_cases x with hr | hr <;> rw [hr] <;> omega

theorem abs_pyRound_sub (n : ℕ) (x : ℚ) : |pyRound n x - x| ≤ 1/2 / 10 ^ n := by
  have hp : (0 : ℚ) < 10 ^ n := by positivity
  have h := abs_pyRoundInt_sub (x * 10 ^ n)
  have heq : pyRound n x - x = ((pyRoundInt (x * 10 ^ n) : ℚ) - x * 10 ^ n) / 10 ^ n := by
    unfold pyRound
    field_simp
    ring
  rw [heq, abs_div, abs_of_pos hp]
  gcongr

theorem pyRound_nonneg {x : ℚ} (n : ℕ) (h : 0 ≤ x) : 0 ≤ pyRound n x := by
  have hp : (0 : ℚ) < 10 ^ n := by positivity
  have : (0 : ℤ) ≤ pyRoundInt (x * 10 ^ n) :=
    le_pyRoundInt_of_le (by positivity)
  unfold pyRound
  positivity

theorem sum_map_pyRound_sub_le (l : List ℚ) :
    |(l.map (pyRound 1)).sum - l.sum| ≤ l.length * (1/20) := by
  induction l with
  | nil => simp
  | cons x l ih =>
    have h := abs_pyRound_sub 1 x
    norm_num at h
    simp only [List.map_cons, List.sum_cons, List.length_cons]
    push_cast
    calc |pyRound 1 x + (l.map (pyRound 1)).sum - (x + l.sum)|
        = |(pyRound 1 x - x) + ((l.map (pyRound 1)).sum - l.sum)| := by ring_nf
      _ ≤ |pyRound 1 x - x| + |(l.map (pyRound 1)).sum - l.sum| := abs_add _ _
      _ ≤ 1/20 + l.length * (1/20) := by
          have := ih
          gcongr
      _ = (l.length + 1) * (1/20) := by ring

theorem sum_map_div_mul (l : List ℚ) (t : ℚ) :
    (l.map (fun v => v / t * 100)).sum = l.sum / t * 100 := by
  induction l with
  | nil => simp
  | cons x l ih =>
    simp only [List.map_cons, List.sum_cons, ih]
    ring

theorem pyRound_le_intCast {x : ℚ} {c : ℤ} (n : ℕ) (h : x ≤ c) : pyRound n x ≤ c := by
  have hp : (0 : ℚ) < 10 ^ n := by positivity
  have hx : x * 10 ^ n ≤ ((c * 10 ^ n : ℤ) : ℚ) := by
    push_cast
    exact mul_le_mul_of_nonneg_right h (le_of_lt hp)
  have := pyRoundInt_le_of_le hx
  unfold pyRound
  rw [div_le_iff₀ hp]
  calc (pyRoundInt (x * 10 ^ n) : ℚ) ≤ ((c * 10 ^ n : ℤ) : ℚ) := by exact_mod_cast this
    _ = c * 10 ^ n := by push_cast; ring

/-! ## `addImpactRanks` and enrichment lemmas -/

theorem addImpactRanks_map_get (i : ℕ) (l : List Row) (k : String) (h : k ≠ "impact_rank") :
    (addImpactRanks i l).map (fun r => Row.get r k) = l.map (fun r => Row.get r k) := by
  induction l generalizing i with
  | nil => rfl
  | cons r rs ih =>
    simp only [addImpactRanks, List.map_cons]
    rw [Row.get_append_single_ne _ _ _ _ (Ne.symm h), ih]

theorem length_addImpactRanks (i : ℕ) (l : List Row) :
    (addImpactRanks i l).length = l.length := by
  induction l generalizing i with
  | nil => rfl
  | cons r rs ih => simp [addImpactRanks, ih]

theorem get_enriched_variance_explained (d : Row) (a b : ℚ) :
    Row.get (d ++ [("variance_explained", Value.num a), ("variance_pct", Value.num b)])
      "variance_explained" = some (.num a) := by
  have hsplit : d ++ [("variance_explained", Value.num a), ("variance_pct", Value.num b)] =
      (d ++ [("variance_explained", Value.num a)]) ++ [("variance_pct", Value.num b)] := by
    simp
  rw [hsplit, Row.get_append_single_ne _ _ _ _ (by decide), Row.get_append_single, if_pos rfl]

/-! ## Claim C2 (corrected) -/

/-- C2, amended: for `|total_delta| ≥ 0.01`, the `variance_explained` fields
of `calculate_variance_explained`'s output sum exactly to the sum of the
records' coerced `metric_key` fields (no rounding is applied to
`variance_explained`); it equals `total_delta` only when the records' deltas
themselves sum to `total_delta`. -/
theorem calculate_variance_explained_sum (total_delta : ℚ) (records : List Row)
    (metric_key : String) (h : 1/100 ≤ |total_delta|) :
    varianceExplainedSum (calculate_variance_explained total_delta records metric_key) =
      (records.map (fun d => safeFloatV (Row.getD d metric_key (.num 0)))).sum := by
  unfold calculate_variance_explained
  rw [if_neg (not_lt.mpr h)]
  unfold varianceExplainedSum
  have hproj : ∀ (l : List Row) (i : ℕ),
      ((addImpactRanks i l).map (fun r => safeFloatV (Row.getD r "variance_explained" (.num 0)))) =
        l.map (fun r => safeFloatV (Row.getD r "variance_explained" (.num 0))) := by
    intro l i
    have h1 := addImpactRanks_map_get i l "variance_explained" (by decide)
    have h2 : ∀ (m : List Row),
        m.map (fun r => safeFloatV (Row.getD r "variance_explained" (.num 0))) =
          (m.map (fun r => Row.get r "variance_explained")).map
            (fun o => safeFloatV (o.getD (.num 0))) := by
      intro m
      rw [List.map_map]
      rfl
    rw [h2, h2, h1]
  rw [hproj]
  have hperm := (List.perm_insertionSort (fun a b => veSortKey b ≤ veSortKey a)
    (records.map (fun d =>
      d ++ [("variance_explained",
              Value.num (safeFloatV (Row.getD d metric_key (.num 0)))),
            ("variance_pct",
              Value.num (if total_delta ≠ 0 then
                safeFloatV (Row.getD d metric_key (.num 0)) / total_delta * 100 else 0))])))
  have hsum := (hperm.map
    (fun r => safeFloatV (Row.getD r "variance_explained" (.num 0)))).sum_eq
  rw [hsum, List.map_map]
  refine congrArg List.sum (List.map_congr_left ?_)
  intro d _
  show safeFloatV (Row.getD (d ++ _) "variance_explained" (.num 0)) = _
  unfold Row.getD
  rw [get_enriched_variance_explained]
  rfl

/-- C2 counterexample: with `total_delta = 1` and one record of delta `5`,
the `variance_explained` fields sum to `5`, not to `total_delta = 1` — far
beyond any rounding slack. -/
theorem calculate_variance_explained_sum_ne_total_delta :
    varianceExplainedSum (calculate_variance_explained 1 [[("delta", Value.num 5)]] "delta") = 5 ∧
      ¬ (|varianceExplainedSum
          (calculate_variance_explained 1 [[("delta", Value.num 5)]] "delta") - 1| ≤ 1/20) := by
  constructor
  · with_unfolding_all rfl
  · have h : varianceExplainedSum
        (calculate_variance_explained 1 [[("delta", Value.num 5)]] "delta") = 5 := by
      with_unfolding_all rfl
    rw [h]
    norm_num

/-- C2 witness: scenario C's records, whose deltas 70 and 30 do sum to the
total delta 100, reconcile exactly. -/
theorem calculate_variance_explained_sum_witness :
    varianceExplainedSum
        (calculate_variance_explained 100 [[("delta", Value.num 70)], [("delta", Value.num 30)]]
          "delta") =
      ([[("delta", Value.num 70)], [("delta", Value.num 30)]].map
        (fun d => safeFloatV (Row.getD d "delta" (.num 0)))).sum :=
  calculate_variance_explained_sum 100 [[("delta", Value.num 70)], [("delta", Value.num 30)]]
    "delta" (by norm_num)

/-! ## Claim C4 (`compute_deltas`) -/

/-- C4: `compute_deltas` emits exactly one record per `current` row, in
`current`'s order (so groups present only in `previous` are never emitted);
the record's `current`/`previous`/`delta` fields satisfy
`delta = current - previous` with `previous = 0` when no previous row has
the group's key, and `pct_change` is the rounded percentage when
`previous ≠ 0` and `None` exactly when `previous = 0`. -/
theorem compute_deltas_spec (current previous : List Row) (metric : String)
    (groupKeys : List String) :
    (compute_deltas current previous metric groupKeys).length = current.length ∧
    ∀ i, ∀ _ : i < current.length, ∀ _ : i < (compute_deltas current previous metric groupKeys).length,
      Row.get (compute_deltas current previous metric groupKeys)[i] "current" =
        some (.num (safeFloat (Row.get current[i] metric))) ∧
      Row.get (compute_deltas current previous metric groupKeys)[i] "previous" =
        some (.num (prevLookup previous metric groupKeys (rowKey groupKeys current[i]))) ∧
      Row.get (compute_deltas current previous metric groupKeys)[i] "delta" =
        some (.num (safeFloat (Row.get current[i] metric) -
          prevLookup previous metric groupKeys (rowKey groupKeys current[i]))) ∧
      (prevLookup previous metric groupKeys (rowKey groupKeys current[i]) ≠ 0 →
        Row.get (compute_deltas current previous metric groupKeys)[i] "pct_change" =
          some (.num (pyRound 1 ((safeFloat (Row.get current[i] metric) -
            prevLookup previous metric groupKeys (rowKey groupKeys current[i])) /
            prevLookup previous metric groupKeys (rowKey groupKeys current[i]) * 100)))) ∧
      (Row.get (compute_deltas current previous metric groupKeys)[i] "pct_change" = some .null ↔
        prevLookup previous metric groupKeys (rowKey groupKeys current[i]) = 0) ∧
      ((∀ r ∈ previous, rowKey groupKeys r ≠ rowKey groupKeys current[i]) →
        prevLookup previous metric groupKeys (rowKey groupKeys current[i]) = 0) := by
  refine ⟨by simp [compute_deltas], ?_⟩
  intro i hi hi'
  have hrec : (compute_deltas current previous metric groupKeys)[i] =
      (groupKeys.map (fun k => (k, Row.getD current[i] k .null)) ++
        [("current", Value.num (safeFloat (Row.get current[i] metric))),
         ("previous", Value.num (prevLookup previous metric groupKeys (rowKey groupKeys current[i]))),
         ("delta", Value.num (safeFloat (Row.get current[i] metric) -
            prevLookup previous metric groupKeys (rowKey groupKeys current[i]))),
         ("pct_change",
          if prevLookup previous metric groupKeys (rowKey groupKeys current[i]) ≠ 0 then
            Value.num (pyRound 1 ((safeFloat (Row.get current[i] metric) -
              prevLookup previous metric groupKeys (rowKey groupKeys current[i])) /
              prevLookup previous metric groupKeys (rowKey groupKeys current[i]) * 100))
          else Value.null)] : Row) := by
    unfold compute_deltas
    rw [List.getElem_map]
  set p := prevLookup previous metric groupKeys (rowKey groupKeys current[i]) with hp
  set c := safeFloat (Row.get current[i] metric) with hc
  have hsplit : ∀ v₁ v₂ v₃ v₄ : Value,
      (groupKeys.map (fun k => (k, Row.getD current[i] k .null)) ++
        [("current", v₁), ("previous", v₂), ("delta", v₃), ("pct_change", v₄)] : Row) =
      ((((groupKeys.map (fun k => (k, Row.getD current[i] k .null)) ++
        [("current", v₁)]) ++ [("previous", v₂)]) ++ [("delta", v₃)]) ++ [("pct_change", v₄)]) := by
    intro v₁ v₂ v₃ v₄
    simp
  rw [hrec, hsplit]
  refine ⟨?_, ?_, ?_, ?_, ?_, ?_⟩
  · rw [Row.get_append_single_ne _ _ _ _ (by decide),
      Row.get_append_single_ne _ _ _ _ (by decide),
      Row.get_append_single_ne _ _ _ _ (by decide),
      Row.get_append_single, if_pos rfl]
  · rw [Row.get_append_single_ne _ _ _ _ (by decide),
      Row.get_append_single_ne _ _ _ _ (by decide),
      Row.get_append_single, if_pos rfl]
  · rw [Row.get_append_single_ne _ _ _ _ (by decide),
      Row.get_append_single, if_pos rfl]
  · intro hne
    rw [Row.get_append_single, if_pos rfl, if_pos hne]
  · rw [Row.get_append_single, if_pos rfl]
    constructor
    · intro hnull
      by_contra hne
      rw [if_pos hne] at hnull
      exact Value.noConfusion (Option.some.inj hnull)
    · intro h0
      rw [if_neg (by simpa using h0)]
  · intro habs
    rw [hp]
    unfold prevLookup
    have : (previous.reverse.find? (fun r => rowKey groupKeys r = rowKey groupKeys current[i])) =
        none := by
      rw [List.find?_eq_none]
      intro r hr
      simp only [decide_eq_true_eq]
      exact habs r (List.mem_reverse.mp hr)
    rw [this]

/-- C4 witness: scenario A's single-row comparison instantiates every
conjunct at index 0. -/
theorem compute_deltas_spec_witness :
    Row.get (compute_deltas [[("region", Value.str "US"), ("revenue", Value.num 120)]]
        [[("region", Value.str "US"), ("revenue", Value.num 100)]] "revenue" ["region"])[0]
      "delta" = some (.num (safeFloat (Row.get
        ([[("region", Value.str "US"), ("revenue", Value.num 120)]] : List Row)[0] "revenue") -
        prevLookup [[("region", Value.str "US"), ("revenue", Value.num 100)]] "revenue" ["region"]
          (rowKey ["region"]
            ([[("region", Value.str "US"), ("revenue", Value.num 120)]] : List Row)[0]))) :=
  ((compute_deltas_spec [[("region", Value.str "US"), ("revenue", Value.num 120)]]
      [[("region", Value.str "US"), ("revenue", Value.num 100)]] "revenue" ["region"]).2 0
    (by norm_num) (by simp [compute_deltas])).2.2.1

/-! ## Claim C8 (`compute_shares`) -/

/-- C8: `compute_shares` returns one row per input row with every original
field's lookup preserved and `share_pct` appended: all `0.0` when the
coerced total is `0`, else `round(value/total*100, 1)`; and in the nonzero
case the shares sum to `100` within the accumulated rounding slack. -/
theorem compute_shares_spec (data : List Row) (metric : String) :
    (compute_shares data metric).length = data.length ∧
    (∀ i, ∀ _ : i < data.length, ∀ _ : i < (compute_shares data metric).length,
      (∀ k, k ≠ "share_pct" → Row.get (compute_shares data metric)[i] k = Row.get data[i] k) ∧
      Row.get (compute_shares data metric)[i] "share_pct" =
        some (.num (if (data.map (fun r => safeFloat (Row.get r metric))).sum = 0 then 0
          else pyRound 1 (safeFloat (Row.get data[i] metric) /
            (data.map (fun r => safeFloat (Row.get r metric))).sum * 100)))) ∧
    ((data.map (fun r => safeFloat (Row.get r metric))).sum ≠ 0 →
      |sharePctSum (compute_shares data metric) - 100| ≤ data.length * (1/20)) := by
  set total := (data.map (fun r => safeFloat (Row.get r metric))).sum with htotal
  by_cases htot : total = 0
  · have hcs : compute_shares data metric =
        data.map (fun r => r ++ [("share_pct", Value.num 0)]) := by
      unfold compute_shares
      rw [← htotal, if_pos htot]
    refine ⟨by rw [hcs]; simp, ?_, fun hne => absurd htot hne⟩
    intro i hi hi'
    simp only [hcs, List.getElem_map]
    refine ⟨?_, ?_⟩
    · intro k hk
      exact Row.get_append_single_ne _ _ _ _ (Ne.symm hk)
    · rw [Row.get_append_single, if_pos rfl, if_pos htot]
  · have hcs : compute_shares data metric =
        data.map (fun r =>
          r ++ [("share_pct", Value.num (pyRound 1 (safeFloat (Row.get r metric) / total * 100)))]) := by
      unfold compute_shares
      rw [← htotal, if_neg htot]
    refine ⟨by rw [hcs]; simp, ?_, ?_⟩
    · intro i hi hi'
      simp only [hcs, List.getElem_map]
      refine ⟨?_, ?_⟩
      · intro k hk
        exact Row.get_append_single_ne _ _ _ _ (Ne.symm hk)
      · rw [Row.get_append_single, if_pos rfl, if_neg htot]
    · intro _
      rw [hcs]
      unfold sharePctSum
      have hmap : (data.map (fun r =>
          r ++ [("share_pct", Value.num (pyRound 1 (safeFloat (Row.get r metric) / total * 100)))])).map
            (fun r => safeFloat (Row.get r "share_pct")) =
          (data.map (fun r => safeFloat (Row.get r metric) / total * 100)).map (pyRound 1) := by
        rw [List.map_map, List.map_map]
        refine List.map_congr_left ?_
        intro r _
        show safeFloat (Row.get (r ++ _) "share_pct") = _
        rw [Row.get_append_single, if_pos rfl]
        rfl
      rw [hmap]
      have hsum : (data.map (fun r => safeFloat (Row.get r metric) / total * 100)).sum = 100 := by
        have : data.map (fun r => safeFloat (Row.get r metric) / total * 100) =
            (data.map (fun r => safeFloat (Row.get r metric))).map (fun v => v / total * 100) := by
          rw [List.map_map]
          rfl
        rw [this, sum_map_div_mul, ← htotal, div_self htot]
        ring
      have hlen : (data.map (fun r => safeFloat (Row.get r metric) / total * 100)).length =
          data.length := by simp
      have := sum_map_pyRound_sub_le (data.map (fun r => safeFloat (Row.get r metric) / total * 100))
      rw [hsum, hlen] at this
      exact this

/-- C8 witness: the docstring's two-row example, at index 0, with the
nonzero-total sum bound. -/
theorem compute_shares_spec_witness :
    Row.get ((compute_shares
        [[("p", Value.str "A"), ("clicks", Value.num 75)],
         [("p", Value.str "B"), ("clicks", Value.num 25)]] "clicks").get
          ⟨0, by simp only [compute_shares]; split <;> simp⟩) "p" =
      Row.get (([[("p", Value.str "A"), ("clicks", Value.num 75)],
         [("p", Value.str "B"), ("clicks", Value.num 25)]] : List Row).get ⟨0, by simp⟩) "p" :=
  (((compute_shares_spec
      [[("p", Value.str "A"), ("clicks", Value.num 75)],
       [("p", Value.str "B"), ("clicks", Value.num 25)]] "clicks").2.1 0 (by norm_num)
    (by simp only [compute_shares]; split <;> simp)).1 "p" (by decide))

/-! ## Claim C9 (`rank_dimensions_by_impact`) -/

/-- C9: every `impact_score` produced by `rank_dimensions_by_impact` lies in
`[0, 100]` (in the near-zero branch the scores are all `0`), and the output
is sorted descending by `impact_score`. -/
theorem rank_dimensions_by_impact_spec (current previous : List Row) (metric : String)
    (dimensions : List String) (total_delta : ℚ) :
    (∀ e ∈ rank_dimensions_by_impact current previous metric dimensions total_delta,
      0 ≤ e.impact_score ∧ e.impact_score ≤ 100) ∧
    List.Sorted impactDesc
      (rank_dimensions_by_impact current previous metric dimensions total_delta) := by
  unfold rank_dimensions_by_impact
  by_cases hz : |total_delta| < 1/100
  · rw [if_pos hz]
    constructor
    · intro e he
      obtain ⟨d, _, hd⟩ := List.mem_map.mp he
      rw [← hd]
      norm_num
    · induction dimensions with
      | nil => exact .nil
      | cons d ds ih =>
        refine List.Pairwise.cons ?_ ih
        intro e he
        obtain ⟨d', _, hd'⟩ := List.mem_map.mp he
        rw [← hd']
        exact le_refl 0
  · rw [if_neg hz]
    refine ⟨?_, List.sorted_insertionSort impactDesc _⟩
    intro e he
    have he' : e ∈ dimensions.filterMap (fun dim =>
        if current.any (fun row => Row.has row dim) = true then
          some ⟨dim,
            pyRound 1 (if total_delta ≠ 0 then
              ((compute_deltas current previous metric [dim]).map
                (fun d => |safeFloatV (Row.getD d "delta" (.num 0))|)).sum / |total_delta| * 100
              else 0),
            pyRound 1 (min (if total_delta ≠ 0 then
              ((compute_deltas current previous metric [dim]).map
                (fun d => |safeFloatV (Row.getD d "delta" (.num 0))|)).sum / |total_delta| * 100
              else 0) 100),
            some (pyRound 2 (((compute_deltas current previous metric [dim]).map
              (fun d => |safeFloatV (Row.getD d "delta" (.num 0))|)).sum))⟩
        else none) :=
      ((List.perm_insertionSort impactDesc _).mem_iff).mp he
    obtain ⟨dim, _, hf⟩ := List.mem_filterMap.mp he'
    by_cases hany : current.any (fun row => Row.has row dim) = true
    · rw [if_pos hany] at hf
      obtain rfl := Option.some.inj hf
      set vp := (if total_delta ≠ 0 then
        ((compute_deltas current previous metric [dim]).map
          (fun d => |safeFloatV (Row.getD d "delta" (.num 0))|)).sum / |total_delta| * 100
        else 0) with hvp
      have hvp0 : 0 ≤ vp := by
        rw [hvp]
        split
        · have hsum : 0 ≤ ((compute_deltas current previous metric [dim]).map
              (fun d => |safeFloatV (Row.getD d "delta" (.num 0))|)).sum :=
            List.sum_nonneg (by
              intro x hx
              obtain ⟨r, _, hr⟩ := List.mem_map.mp hx
              rw [← hr]
              exact abs_nonneg _)
          positivity
        · exact le_refl 0
      constructor
      · exact pyRound_nonneg 1 (le_min hvp0 (by norm_num))
      · have h100 : min vp 100 ≤ ((100 : ℤ) : ℚ) := by
          push_cast
          exact min_le_right _ _
        have := pyRound_le_intCast 1 h100
        calc pyRound 1 (min vp 100) ≤ ((100 : ℤ) : ℚ) := this
          _ = 100 := by push_cast; ring
    · rw [if_neg hany] at hf
      exact Option.noConfusion hf

/-! ## Calendar lemmas -/

theorem one_le_daysInMonth (y : ℤ) (m : ℕ) : 1 ≤ daysInMonth y m := by
  unfold daysInMonth
  split
  · split <;> norm_num
  · split <;> norm_num

theorem toRD_nextDay (d : Date) (h : ValidDate d) : toRD (nextDay d) = toRD d + 1 := by
  obtain ⟨y, m, day⟩ := d
  obtain ⟨hm1, hm2, hd1, hd2⟩ := h
  simp only at hm1 hm2 hd1 hd2
  unfold nextDay
  split
  · unfold toRD
    push_cast
    ring
  · rename_i hlt
    simp only [not_lt] at hlt
    have hday : day = daysInMonth y m := le_antisymm hd2 hlt
    split
    · rename_i hmlt
      simp only at hmlt
      unfold toRD
      simp only
      rw [hday]
      have htab : (daysBeforeMonth (isLeap y) (m + 1) : ℤ) =
          (daysBeforeMonth (isLeap y) m : ℤ) + (daysInMonth y m : ℤ) := by
        interval_cases m <;>
          cases hl : isLeap y <;>
            simp [daysBeforeMonth, daysInMonth, hl]
      push_cast at htab ⊢
      omega
    · rename_i hmge
      simp only [not_lt] at hmge
      have hm12 : m = 12 := le_antisymm hm2 hmge
      subst hm12
      have hd31 : day = 31 := by
        rw [hday]
        simp [daysInMonth]
      subst hd31
      unfold toRD
      simp only [daysBeforeMonth, daysInMonth]
      by_cases hy : y % 4 = 0 ∧ (y % 100 ≠ 0 ∨ y % 400 = 0) <;>
        by_cases hy1 : (y + 1) % 4 = 0 ∧ ((y + 1) % 100 ≠ 0 ∨ (y + 1) % 400 = 0) <;>
          simp [isLeap, hy, hy1] <;> omega

theorem validDate_mk (y : ℤ) (m day : ℕ) (h1 : 1 ≤ m) (h2 : m ≤ 12) (h3 : 1 ≤ day)
    (h4 : day ≤ daysInMonth y m) : ValidDate ⟨y, m, day⟩ :=
  ⟨h1, h2, h3, h4⟩

theorem validDate_nextDay (d : Date) (h : ValidDate d) : ValidDate (nextDay d) := by
  obtain ⟨y, m, day⟩ := d
  obtain ⟨hm1, hm2, hd1, hd2⟩ := h
  dsimp only at hm1 hm2 hd1 hd2
  unfold nextDay
  dsimp only
  split
  · rename_i hlt
    exact validDate_mk _ _ _ hm1 hm2 (by omega) (by omega)
  · split
    · rename_i hmlt
      exact validDate_mk _ _ _ (by omega) (by omega) (le_refl 1) (one_le_daysInMonth _ _)
    · exact validDate_mk _ _ _ (le_refl 1) (by norm_num) (le_refl 1) (one_le_daysInMonth _ _)

theorem toRD_prevDay (d : Date) (h : ValidDate d) : toRD (prevDay d) = toRD d - 1 := by
  obtain ⟨y, m, day⟩ := d
  obtain ⟨hm1, hm2, hd1, hd2⟩ := h
  simp only at hm1 hm2 hd1 hd2
  unfold prevDay
  split
  · unfold toRD
    rename_i hlt
    simp only at hlt
    push_cast [Nat.cast_sub (by omega : 1 ≤ day)]
    ring
  · rename_i hge
    simp only [not_lt] at hge
    have hday : day = 1 := le_antisymm hge hd1
    subst hday
    split
    · rename_i hmgt
      simp only at hmgt
      unfold toRD
      simp only
      have htab : (daysBeforeMonth (isLeap y) m : ℤ) =
          (daysBeforeMonth (isLeap y) (m - 1) : ℤ) + (daysInMonth y (m - 1) : ℤ) := by
        interval_cases m <;>
          cases hl : isLeap y <;>
            simp [daysBeforeMonth, daysInMonth, hl]
      omega
    · rename_i hmle
      simp only [not_lt] at hmle
      have hm1' : m = 1 := le_antisymm hmle hm1
      subst hm1'
      unfold toRD
      simp only [daysBeforeMonth, daysInMonth]
      by_cases hy : y % 4 = 0 ∧ (y % 100 ≠ 0 ∨ y % 400 = 0) <;>
        by_cases hy1 : (y - 1) % 4 = 0 ∧ ((y - 1) % 100 ≠ 0 ∨ (y - 1) % 400 = 0) <;>
          simp [isLeap, hy, hy1] <;> omega

theorem validDate_prevDay (d : Date) (h : ValidDate d) : ValidDate (prevDay d) := by
  obtain ⟨y, m, day⟩ := d
  obtain ⟨hm1, hm2, hd1, hd2⟩ := h
  dsimp only at hm1 hm2 hd1 hd2
  unfold prevDay
  dsimp only
  split
  · rename_i hlt
    exact validDate_mk _ _ _ hm1 hm2 (by omega) (by omega)
  · split
    · rename_i hmgt
      exact validDate_mk _ _ _ (by omega) (by omega) (one_le_daysInMonth _ _) (le_refl _)
    · exact validDate_mk _ _ _ (by norm_num) (le_refl 12) (by norm_num) (by simp [daysInMonth])

theorem nextDay_iterate (n : ℕ) (d : Date) (h : ValidDate d) :
    ValidDate (nextDay^[n] d) ∧ toRD (nextDay^[n] d) = toRD d + n := by
  induction n with
  | zero => simpa using h
  | succ n ih =>
    rw [Function.iterate_succ_apply']
    refine ⟨validDate_nextDay _ ih.1, ?_⟩
    rw [toRD_nextDay _ ih.1, ih.2]
    push_cast
    ring

theorem prevDay_iterate (n : ℕ) (d : Date) (h : ValidDate d) :
    ValidDate (prevDay^[n] d) ∧ toRD (prevDay^[n] d) = toRD d - n := by
  induction n with
  | zero => simpa using h
  | succ n ih =>
    rw [Function.iterate_succ_apply']
    refine ⟨validDate_prevDay _ ih.1, ?_⟩
    rw [toRD_prevDay _ ih.1, ih.2]
    push_cast
    ring

theorem addDays_spec (d : Date) (h : ValidDate d) (n : ℤ) :
    ValidDate (addDays d n) ∧ toRD (addDays d n) = toRD d + n := by
  unfold addDays
  split
  · rename_i hn
    have := nextDay_iterate n.toNat d h
    refine ⟨this.1, ?_⟩
    rw [this.2, Int.toNat_of_nonneg hn]
  · rename_i hn
    simp only [not_le] at hn
    have := prevDay_iterate (-n).toNat d h
    refine ⟨this.1, ?_⟩
    rw [this.2, Int.toNat_of_nonneg (by omega)]
    ring

/-! ## `period_date_ranges` branch equations -/

theorem pdr_week_eq (t : Date) : period_date_ranges "week" t =
    .ok ((addDays t (-(weekday t : ℤ)), t),
         (addDays (addDays t (-(weekday t : ℤ))) (-7), addDays t (-7))) := by
  unfold period_date_ranges
  rw [if_pos rfl]

theorem pdr_month_eq (t : Date) : period_date_ranges "month" t =
    .ok ((⟨t.year, t.month, 1⟩, t),
         ((if t.month = 1 then (⟨t.year - 1, 12, 1⟩ : Date) else ⟨t.year, t.month - 1, 1⟩),
          addDays (if t.month = 1 then (⟨t.year - 1, 12, 1⟩ : Date) else ⟨t.year, t.month - 1, 1⟩)
            (dateSub t ⟨t.year, t.month, 1⟩))) := by
  unfold period_date_ranges
  rw [if_neg (by decide), if_pos rfl]

theorem pdr_quarter_eq (t : Date) : period_date_ranges "quarter" t =
    .ok ((⟨t.year, (t.month - 1) / 3 * 3 + 1, 1⟩, t),
         ((if (t.month - 1) / 3 * 3 + 1 ≤ 3 then (⟨t.year - 1, (t.month - 1) / 3 * 3 + 1 + 9, 1⟩ : Date)
           else ⟨t.year, (t.month - 1) / 3 * 3 + 1 - 3, 1⟩),
          addDays
            (if (t.month - 1) / 3 * 3 + 1 ≤ 3 then (⟨t.year - 1, (t.month - 1) / 3 * 3 + 1 + 9, 1⟩ : Date)
             else ⟨t.year, (t.month - 1) / 3 * 3 + 1 - 3, 1⟩)
            (dateSub t ⟨t.year, (t.month - 1) / 3 * 3 + 1, 1⟩))) := by
  unfold period_date_ranges
  rw [if_neg (by decide), if_neg (by decide), if_pos rfl]

/-! ## Claim C5 (`period_date_ranges` spans) -/

/-- C5: for every valid reference date and supported period token, the
current and previous windows span the same number of days; in particular
scenario E: month over `2024-03-15` gives `[2024-03-01, 2024-03-15]` versus
the day-count-matched `[2024-02-01, 2024-02-15]`. -/
theorem period_date_ranges_matched_spans (ref : Date) (p : String) (cw pw : Date × Date)
    (href : ValidDate ref) (hp : p = "week" ∨ p = "month" ∨ p = "quarter")
    (hok : period_date_ranges p ref = .ok (cw, pw)) :
    dateSub cw.2 cw.1 = dateSub pw.2 pw.1 ∧
    period_date_ranges "month" ⟨2024, 3, 15⟩ =
      .ok ((⟨2024, 3, 1⟩, ⟨2024, 3, 15⟩), (⟨2024, 2, 1⟩, ⟨2024, 2, 15⟩)) := by
  refine ⟨?_, by with_unfolding_all rfl⟩
  rcases hp with rfl | rfl | rfl
  · rw [pdr_week_eq] at hok
    obtain ⟨rfl, rfl⟩ := Prod.mk.inj (Except.ok.inj hok)
    have hcs := addDays_spec ref href (-(weekday ref : ℤ))
    have h1 := addDays_spec ref href (-7)
    have h2 := addDays_spec _ hcs.1 (-7 : ℤ)
    unfold dateSub
    dsimp only
    rw [hcs.2, h1.2, h2.2, hcs.2]
    ring
  · rw [pdr_month_eq] at hok
    obtain ⟨rfl, rfl⟩ := Prod.mk.inj (Except.ok.inj hok)
    obtain ⟨hm1, hm2, _, _⟩ := href
    have hps : ValidDate (if ref.month = 1 then (⟨ref.year - 1, 12, 1⟩ : Date)
        else ⟨ref.year, ref.month - 1, 1⟩) := by
      split
      · exact validDate_mk _ _ _ (by norm_num) (le_refl 12) (le_refl 1) (one_le_daysInMonth _ _)
      · rename_i hne
        exact validDate_mk _ _ _ (by omega) (by omega) (le_refl 1) (one_le_daysInMonth _ _)
    have hadd := addDays_spec _ hps (dateSub ref ⟨ref.year, ref.month, 1⟩)
    unfold dateSub
    dsimp only
    unfold dateSub at hadd
    rw [hadd.2]
    ring
  · rw [pdr_quarter_eq] at hok
    obtain ⟨rfl, rfl⟩ := Prod.mk.inj (Except.ok.inj hok)
    obtain ⟨hm1, hm2, _, _⟩ := href
    have hps : ValidDate (if (ref.month - 1) / 3 * 3 + 1 ≤ 3 then
        (⟨ref.year - 1, (ref.month - 1) / 3 * 3 + 1 + 9, 1⟩ : Date)
        else ⟨ref.year, (ref.month - 1) / 3 * 3 + 1 - 3, 1⟩) := by
      split
      · rename_i hle
        exact validDate_mk _ _ _ (by omega) (by omega) (le_refl 1) (one_le_daysInMonth _ _)
      · rename_i hgt
        exact validDate_mk _ _ _ (by omega) (by omega) (le_refl 1) (one_le_daysInMonth _ _)
    have hadd := addDays_spec _ hps (dateSub ref ⟨ref.year, (ref.month - 1) / 3 * 3 + 1, 1⟩)
    unfold dateSub
    dsimp only
    unfold dateSub at hadd
    rw [hadd.2]
    ring

/-- C5 witness: scenario E instantiated — the March window and its
day-count-matched February counterpart span 14 days each. -/
theorem period_date_ranges_matched_spans_witness :
    dateSub (⟨2024, 3, 15⟩ : Date) ⟨2024, 3, 1⟩ = dateSub ⟨2024, 2, 15⟩ ⟨2024, 2, 1⟩ :=
  (period_date_ranges_matched_spans ⟨2024, 3, 15⟩ "month"
    (⟨2024, 3, 1⟩, ⟨2024, 3, 15⟩) (⟨2024, 2, 1⟩, ⟨2024, 2, 15⟩)
    (by decide) (Or.inr (Or.inl rfl)) (by with_unfolding_all rfl)).1

/-! ## Claim C10 (previous window can overlap the current one) -/

/-- C10: for `period="month"` with reference `2024-03-31` (March is longer
than February), the day-count-matched previous window ends on `2024-03-02`,
on or after the current window's start `2024-03-01` — the windows overlap. -/
theorem period_date_ranges_month_overlap :
    period_date_ranges "month" ⟨2024, 3, 31⟩ =
      .ok ((⟨2024, 3, 1⟩, ⟨2024, 3, 31⟩), (⟨2024, 2, 1⟩, ⟨2024, 3, 2⟩)) ∧
    toRD ⟨2024, 3, 1⟩ ≤ toRD ⟨2024, 3, 2⟩ := by
  refine ⟨by with_unfolding_all rfl, by decide⟩

/-! ## Orchestrator reduction lemmas -/

instance : RightCommutative (max : ℚ → ℚ → ℚ) :=
  ⟨fun b a₁ a₂ => by rw [max_assoc, max_comm a₁, ← max_assoc]⟩

theorem decompose_eq_core (q : QueryFn) (today : Date) (metric period : String)
    (dims? : Option (List String)) (catalog : Option (List (String × Bool)))
    (maxItems : ℕ) (minThresh : ℚ) (cw pw : Date × Date) (dims : List String) (cv pv : ℚ)
    (h1 : period_date_ranges period today = .ok (cw, pw))
    (h2 : resolveDimensions dims? catalog = some dims)
    (h3 : dims ≠ [])
    (h4 : (q [] cw).ok = true) (h5 : (q [] cw).data ≠ [])
    (h6 : totalOf (q [] cw).data metric = some cv)
    (h7 : (q [] pw).ok = true) (h8 : (q [] pw).data ≠ [])
    (h9 : totalOf (q [] pw).data metric = some pv) :
    decompose_metric_change q today metric period dims? catalog maxItems minThresh =
      decomposeCore q metric period cw pw dims cv pv maxItems minThresh := by
  simp [decompose_metric_change, h1, h2, h3, h4, h5, h6, h7, h8, h9]

theorem decomposeCore_short (q : QueryFn) (metric period : String) (cw pw : Date × Date)
    (dims : List String) (cv pv : ℚ) (maxItems : ℕ) (minThresh : ℚ)
    (h : |cv - pv| < 1/100) :
    decomposeCore q metric period cw pw dims cv pv maxItems minThresh =
      ⟨true, metric, period, 0, some 0, cv, pv, [], none, [], none⟩ := by
  simp only [decomposeCore]
  rw [if_pos h]

theorem decomposeCore_ok (q : QueryFn) (metric period : String) (cw pw : Date × Date)
    (dims : List String) (cv pv : ℚ) (maxItems : ℕ) (minThresh : ℚ) :
    (decomposeCore q metric period cw pw dims cv pv maxItems minThresh).ok = true := by
  simp only [decomposeCore]
  split <;> rfl

theorem decomposeCore_impacts (q : QueryFn) (metric period : String) (cw pw : Date × Date)
    (dims : List String) (cv pv : ℚ) (maxItems : ℕ) (minThresh : ℚ)
    (h : ¬ |cv - pv| < 1/100) :
    (decomposeCore q metric period cw pw dims cv pv maxItems minThresh).dimension_impacts =
      sortByImpactDesc (dims.filterMap (fun dim =>
        match fetchedData q [dim] cw, fetchedData q [dim] pw with
        | some cData, some pData =>
          some ⟨dim,
            pyRound 1 (min (if cv - pv ≠ 0 then
              ((calculate_variance_explained (cv - pv)
                  (compute_deltas cData pData metric [dim]) "delta").map
                (fun d => |safeFloatV (Row.getD d "delta" (.num 0))|)).foldl max 0 / |cv - pv| * 100
              else 0) 100),
            pyRound 1 (min (if cv - pv ≠ 0 then
              ((calculate_variance_explained (cv - pv)
                  (compute_deltas cData pData metric [dim]) "delta").map
                (fun d => |safeFloatV (Row.getD d "delta" (.num 0))|)).foldl max 0 / |cv - pv| * 100
              else 0) 100), none⟩
        | _, _ => none)) := by
  simp only [decomposeCore]
  rw [if_neg h]

/-! ## Claim C3 (terminal short-circuit) -/

/-- C3: whenever the two total queries succeed with values within `0.01` of
each other, `decompose_metric_change` returns the short-circuit record —
`ok = true`, `total_pct_change = 0.0`, no dimension impacts, no top
dimension, no breakdown, no error — for *every* query function, so no
per-dimension fetch can influence the result. -/
theorem decompose_short_circuit (q : QueryFn) (today : Date) (metric period : String)
    (dims? : Option (List String)) (catalog : Option (List (String × Bool)))
    (maxItems : ℕ) (minThresh : ℚ) (cw pw : Date × Date) (dims : List String) (cv pv : ℚ)
    (h1 : period_date_ranges period today = .ok (cw, pw))
    (h2 : resolveDimensions dims? catalog = some dims)
    (h3 : dims ≠ [])
    (h4 : (q [] cw).ok = true) (h5 : (q [] cw).data ≠ [])
    (h6 : totalOf (q [] cw).data metric = some cv)
    (h7 : (q [] pw).ok = true) (h8 : (q [] pw).data ≠ [])
    (h9 : totalOf (q [] pw).data metric = some pv)
    (h10 : |cv - pv| < 1/100) :
    decompose_metric_change q today metric period dims? catalog maxItems minThresh =
      ⟨true, metric, period, 0, some 0, cv, pv, [], none, [], none⟩ := by
  rw [decompose_eq_core q today metric period dims? catalog maxItems minThresh cw pw dims cv pv
    h1 h2 h3 h4 h5 h6 h7 h8 h9]
  exact decomposeCore_short q metric period cw pw dims cv pv maxItems minThresh h10

/-- A query function whose totals are both `5` (no significant change) and
whose per-dimension fetches return nothing. -/
def scQuery : QueryFn := fun dims _ =>
  if dims = [] then ⟨true, [[("m", Value.num 5)]], none⟩ else ⟨true, [], none⟩

/-- C3 witness: with equal totals of `5`, the call short-circuits. -/
theorem decompose_short_circuit_witness :
    decompose_metric_change scQuery ⟨2024, 3, 15⟩ "m" "month" (some ["d"]) none 10 (1/20) =
      ⟨true, "m", "month", 0, some 0, 5, 5, [], none, [], none⟩ :=
  decompose_short_circuit scQuery ⟨2024, 3, 15⟩ "m" "month" (some ["d"]) none 10 (1/20)
    (⟨2024, 3, 1⟩, ⟨2024, 3, 15⟩) (⟨2024, 2, 1⟩, ⟨2024, 2, 15⟩) ["d"] 5 5
    (by with_unfolding_all rfl) rfl (by simp) rfl (by simp [scQuery])
    (by with_unfolding_all rfl) rfl (by simp [scQuery]) (by with_unfolding_all rfl)
    (by norm_num)

/-! ## Claim C6 (partial degradation) -/

/-- C6: past the totals and the short-circuit, a failed or empty fetch for
one dimension only removes that dimension from `dimension_impacts`: the call
still returns `ok = true`, no entry carries the failed dimension, and every
dimension whose two fetches succeed is still reported. -/
theorem decompose_partial_degradation (q : QueryFn) (today : Date) (metric period : String)
    (dims? : Option (List String)) (catalog : Option (List (String × Bool)))
    (maxItems : ℕ) (minThresh : ℚ) (cw pw : Date × Date) (dims : List String) (cv pv : ℚ)
    (d : String)
    (h1 : period_date_ranges period today = .ok (cw, pw))
    (h2 : resolveDimensions dims? catalog = some dims)
    (h3 : dims ≠ [])
    (h4 : (q [] cw).ok = true) (h5 : (q [] cw).data ≠ [])
    (h6 : totalOf (q [] cw).data metric = some cv)
    (h7 : (q [] pw).ok = true) (h8 : (q [] pw).data ≠ [])
    (h9 : totalOf (q [] pw).data metric = some pv)
    (h10 : ¬ |cv - pv| < 1/100)
    (hfail : fetchedData q [d] cw = none ∨ fetchedData q [d] pw = none) :
    (decompose_metric_change q today metric period dims? catalog maxItems minThresh).ok = true ∧
    (∀ e ∈ (decompose_metric_change q today metric period dims? catalog maxItems
        minThresh).dimension_impacts, e.dimension ≠ d) ∧
    (∀ d' ∈ dims, ∀ cD pD, fetchedData q [d'] cw = some cD → fetchedData q [d'] pw = some pD →
      ∃ e ∈ (decompose_metric_change q today metric period dims? catalog maxItems
        minThresh).dimension_impacts, e.dimension = d') := by
  rw [decompose_eq_core q today metric period dims? catalog maxItems minThresh cw pw dims cv pv
    h1 h2 h3 h4 h5 h6 h7 h8 h9]
  refine ⟨decomposeCore_ok q metric period cw pw dims cv pv maxItems minThresh, ?_, ?_⟩
  · intro e he
    rw [decomposeCore_impacts q metric period cw pw dims cv pv maxItems minThresh h10] at he
    have he' := ((List.perm_insertionSort impactDesc _).mem_iff).mp he
    obtain ⟨dim, _, hf⟩ := List.mem_filterMap.mp he'
    intro hed
    cases hcw : fetchedData q [dim] cw with
    | none => rw [hcw] at hf; exact Option.noConfusion hf
    | some cData =>
      cases hpw : fetchedData q [dim] pw with
      | none => rw [hcw, hpw] at hf; exact Option.noConfusion hf
      | some pData =>
        rw [hcw, hpw] at hf
        have hdim : e.dimension = dim := by
          obtain rfl := Option.some.inj hf
          rfl
        rw [hdim] at hed
        subst hed
        rcases hfail with hn | hn
        · rw [hcw] at hn; exact Option.noConfusion hn
        · rw [hpw] at hn; exact Option.noConfusion hn
  · intro d' hd' cD pD hcD hpD
    rw [decomposeCore_impacts q metric period cw pw dims cv pv maxItems minThresh h10]
    have hmem : (⟨d',
        pyRound 1 (min (if cv - pv ≠ 0 then
          ((calculate_variance_explained (cv - pv)
              (compute_deltas cD pD metric [d']) "delta").map
            (fun r => |safeFloatV (Row.getD r "delta" (.num 0))|)).foldl max 0 / |cv - pv| * 100
          else 0) 100),
        pyRound 1 (min (if cv - pv ≠ 0 then
          ((calculate_variance_explained (cv - pv)
              (compute_deltas cD pD metric [d']) "delta").map
            (fun r => |safeFloatV (Row.getD r "delta" (.num 0))|)).foldl max 0 / |cv - pv| * 100
          else 0) 100), none⟩ : ImpactEntry) ∈ dims.filterMap (fun dim =>
        match fetchedData q [dim] cw, fetchedData q [dim] pw with
        | some cData, some pData =>
          some ⟨dim,
            pyRound 1 (min (if cv - pv ≠ 0 then
              ((calculate_variance_explained (cv - pv)
                  (compute_deltas cData pData metric [dim]) "delta").map
                (fun r => |safeFloatV (Row.getD r "delta" (.num 0))|)).foldl max 0 / |cv - pv| * 100
              else 0) 100),
            pyRound 1 (min (if cv - pv ≠ 0 then
              ((calculate_variance_explained (cv - pv)
                  (compute_deltas cData pData metric [dim]) "delta").map
                (fun r => |safeFloatV (Row.getD r "delta" (.num 0))|)).foldl max 0 / |cv - pv| * 100
              else 0) 100), none⟩
        | _, _ => none) := by
      refine List.mem_filterMap.mpr ⟨d', hd', ?_⟩
      rw [hcD, hpD]
    refine ⟨_, ((List.perm_insertionSort impactDesc _).mem_iff).mpr hmem, rfl⟩

/-- A query function where dimension `bad` fails while `good` succeeds in
both windows, with totals `6` versus `0`. -/
def pdQuery : QueryFn := fun dims w =>
  if dims = [] then
    (if w.1.month = 3 then ⟨true, [[("m", Value.num 6)]], none⟩
     else ⟨true, [[("m", Value.num 0)]], none⟩)
  else if dims = ["good"] then
    (if w.1.month = 3 then ⟨true, [[("good", Value.str "x"), ("m", Value.num 6)]], none⟩
     else ⟨true, [[("good", Value.str "x"), ("m", Value.num 2)]], none⟩)
  else ⟨false, [], some "connection failed"⟩

/-- C6 witness: `bad` fails and is omitted; `good` is still reported and
the call stays `ok`. -/
theorem decompose_partial_degradation_witness :
    (decompose_metric_change pdQuery ⟨2024, 3, 15⟩ "m" "month" (some ["good", "bad"]) none
        10 (1/20)).ok = true ∧
    (∀ e ∈ (decompose_metric_change pdQuery ⟨2024, 3, 15⟩ "m" "month" (some ["good", "bad"]) none
        10 (1/20)).dimension_impacts, e.dimension ≠ "bad") ∧
    (∀ d' ∈ ["good", "bad"], ∀ cD pD,
      fetchedData pdQuery [d'] (⟨2024, 3, 1⟩, ⟨2024, 3, 15⟩) = some cD →
      fetchedData pdQuery [d'] (⟨2024, 2, 1⟩, ⟨2024, 2, 15⟩) = some pD →
      ∃ e ∈ (decompose_metric_change pdQuery ⟨2024, 3, 15⟩ "m" "month" (some ["good", "bad"]) none
        10 (1/20)).dimension_impacts, e.dimension = d') :=
  decompose_partial_degradation pdQuery ⟨2024, 3, 15⟩ "m" "month" (some ["good", "bad"]) none
    10 (1/20) (⟨2024, 3, 1⟩, ⟨2024, 3, 15⟩) (⟨2024, 2, 1⟩, ⟨2024, 2, 15⟩) ["good", "bad"] 6 0
    "bad"
    (by with_unfolding_all rfl) rfl (by simp) rfl (by simp [pdQuery])
    (by with_unfolding_all rfl) rfl (by simp [pdQuery]) (by with_unfolding_all rfl)
    (by norm_num)
    (Or.inl (by with_unfolding_all rfl))

/-! ## Claim C7 (unsupported period; failures collapse to `ok = false`) -/

/-- C7: an unsupported period token makes `decompose_metric_change` return
`ok = false` with the `ValueError` text naming the token (never a silent
default); and on every input an `ok = false` result carries a non-`None`
error — the embedding is a total function, so no exception escapes. -/
theorem decompose_unsupported_period (q : QueryFn) (today : Date) (metric period : String)
    (dims? : Option (List String)) (catalog : Option (List (String × Bool)))
    (maxItems : ℕ) (minThresh : ℚ) :
    ((period ≠ "week" ∧ period ≠ "month" ∧ period ≠ "quarter") →
      (decompose_metric_change q today metric period dims? catalog maxItems minThresh).ok = false ∧
      (decompose_metric_change q today metric period dims? catalog maxItems minThresh).error =
        some (unsupportedPeriodMessage period) ∧
      ∃ pre suf, unsupportedPeriodMessage period = pre ++ (period ++ suf)) ∧
    ((decompose_metric_change q today metric period dims? catalog maxItems minThresh).ok = false →
      (decompose_metric_change q today metric period dims? catalog maxItems minThresh).error ≠
        none) := by
  constructor
  · rintro ⟨hw, hm, hq⟩
    have hpdr : period_date_ranges period today = .error (unsupportedPeriodMessage period) := by
      unfold period_date_ranges
      rw [if_neg hw, if_neg hm, if_neg hq]
    refine ⟨?_, ?_, "Unsupported period '", "'. Use 'week', 'month', or 'quarter'.", rfl⟩ <;>
      simp [decompose_metric_change, hpdr, errResult]
  · have hsplit : (∃ msg, decompose_metric_change q today metric period dims? catalog maxItems
        minThresh = errResult metric period msg) ∨
        (decompose_metric_change q today metric period dims? catalog maxItems minThresh).ok =
          true := by
      cases hpdr : period_date_ranges period today with
      | error e =>
        refine Or.inl ⟨e, ?_⟩
        simp only [decompose_metric_change, hpdr]
      | ok ws =>
        obtain ⟨cw, pw⟩ := ws
        cases hres : resolveDimensions dims? catalog with
        | none =>
          refine Or.inl ⟨"Metric '" ++ (metric ++ "' not found in any semantic model"), ?_⟩
          simp only [decompose_metric_change, hpdr, hres]
        | some dims =>
          by_cases hdims : dims = []
          · refine Or.inl ⟨"No dimensions available for decomposition", ?_⟩
            simp only [decompose_metric_change, hpdr, hres]
            rw [if_pos hdims]
          · by_cases hcur : (q [] cw).ok = false ∨ (q [] cw).data = []
            · refine Or.inl ⟨"Failed to query current period: " ++ optionStr (q [] cw).error, ?_⟩
              simp only [decompose_metric_change, hpdr, hres]
              rw [if_neg hdims, if_pos hcur]
            · by_cases hprev : (q [] pw).ok = false ∨ (q [] pw).data = []
              · refine Or.inl ⟨"Failed to query previous period: " ++ optionStr (q [] pw).error, ?_⟩
                simp only [decompose_metric_change, hpdr, hres]
                rw [if_neg hdims, if_neg hcur, if_pos hprev]
              · have hok1 : (q [] cw).ok = true := by
                  cases hb : (q [] cw).ok
                  · exact absurd (Or.inl hb) hcur
                  · rfl
                have hd1 : (q [] cw).data ≠ [] := fun he => hcur (Or.inr he)
                have hok2 : (q [] pw).ok = true := by
                  cases hb : (q [] pw).ok
                  · exact absurd (Or.inl hb) hprev
                  · rfl
                have hd2 : (q [] pw).data ≠ [] := fun he => hprev (Or.inr he)
                cases hc : totalOf (q [] cw).data metric with
                | none =>
                  refine Or.inl ⟨floatErrorMessage, ?_⟩
                  simp only [decompose_metric_change, hpdr, hres, hc]
                  rw [if_neg hdims, if_neg hcur, if_neg hprev]
                | some cv =>
                  cases hp : totalOf (q [] pw).data metric with
                  | none =>
                    refine Or.inl ⟨floatErrorMessage, ?_⟩
                    simp only [decompose_metric_change, hpdr, hres, hc, hp]
                    rw [if_neg hdims, if_neg hcur, if_neg hprev]
                  | some pv =>
                    refine Or.inr ?_
                    rw [decompose_eq_core q today metric period dims? catalog maxItems minThresh
                      cw pw dims cv pv hpdr hres hdims hok1 hd1 hc hok2 hd2 hp]
                    exact decomposeCore_ok q metric period cw pw dims cv pv maxItems minThresh
    intro hok
    rcases hsplit with ⟨msg, heq⟩ | htrue
    · rw [heq]
      simp [errResult]
    · rw [htrue] at hok
      exact absurd hok (by simp)

/-- C7 witness: the token `"decade"` is rejected with the naming message. -/
theorem decompose_unsupported_period_witness :
    (decompose_metric_change scQuery ⟨2024, 3, 15⟩ "m" "decade" (some ["d"]) none
        10 (1/20)).ok = false ∧
    (decompose_metric_change scQuery ⟨2024, 3, 15⟩ "m" "decade" (some ["d"]) none
        10 (1/20)).error = some (unsupportedPeriodMessage "decade") ∧
    ∃ pre suf, unsupportedPeriodMessage "decade" = pre ++ ("decade" ++ suf) :=
  (decompose_unsupported_period scQuery ⟨2024, 3, 15⟩ "m" "decade" (some ["d"]) none
    10 (1/20)).1 ⟨by decide, by decide, by decide⟩

/-! ## Claim C1 (corrected): what ranking the orchestrator actually uses -/

theorem map_get_comp (l : List Row) (k : String) (g : Option Value → ℚ)
    (i : ℕ) (h : k ≠ "impact_rank") :
    (addImpactRanks i l).map (fun r => g (Row.get r k)) =
      l.map (fun r => g (Row.get r k)) := by
  have h1 := addImpactRanks_map_get i l k h
  have h2 : ∀ (m : List Row), m.map (fun r => g (Row.get r k)) =
      (m.map (fun r => Row.get r k)).map g := by
    intro m
    rw [List.map_map]
    rfl
  rw [h2, h2, h1]

/-- The largest `|delta|` over the enriched records equals the largest
`|delta|` over the raw delta records: enrichment only appends other keys,
ranks, and permutes. -/
theorem enriched_foldl_max (Δ : ℚ) (deltas : List Row) (h : ¬ |Δ| < 1/100) :
    ((calculate_variance_explained Δ deltas "delta").map
      (fun r => |safeFloatV (Row.getD r "delta" (.num 0))|)).foldl max 0 =
    (deltas.map (fun r => |safeFloatV (Row.getD r "delta" (.num 0))|)).foldl max 0 := by
  unfold calculate_variance_explained
  rw [if_neg h]
  have hrank := map_get_comp (List.insertionSort (fun a b => veSortKey b ≤ veSortKey a)
      (deltas.map (fun d =>
        d ++ [("variance_explained", Value.num (safeFloatV (Row.getD d "delta" (.num 0)))),
              ("variance_pct", Value.num (if Δ ≠ 0 then
                safeFloatV (Row.getD d "delta" (.num 0)) / Δ * 100 else 0))])))
    "delta" (fun o => |safeFloatV (o.getD (.num 0))|) 1 (by decide)
  show ((addImpactRanks 1 _).map (fun r => |safeFloatV ((Row.get r "delta").getD (.num 0))|)).foldl
      max 0 = _
  rw [hrank]
  have hperm := (List.perm_insertionSort (fun a b => veSortKey b ≤ veSortKey a)
    (deltas.map (fun d =>
      d ++ [("variance_explained", Value.num (safeFloatV (Row.getD d "delta" (.num 0)))),
            ("variance_pct", Value.num (if Δ ≠ 0 then
              safeFloatV (Row.getD d "delta" (.num 0)) / Δ * 100 else 0))])))
  rw [(hperm.map (fun r => |safeFloatV ((Row.get r "delta").getD (.num 0))|)).foldl_eq 0]
  rw [List.map_map]
  refine congrArg (fun l => List.foldl max 0 l) (List.map_congr_left ?_)
  intro d _
  show |safeFloatV ((Row.get (d ++ _) "delta").getD (.num 0))| = _
  have hsplit : d ++ [("variance_explained", Value.num (safeFloatV (Row.getD d "delta" (.num 0)))),
      ("variance_pct", Value.num (if Δ ≠ 0 then
        safeFloatV (Row.getD d "delta" (.num 0)) / Δ * 100 else 0))] =
      (d ++ [("variance_explained", Value.num (safeFloatV (Row.getD d "delta" (.num 0))))]) ++
        [("variance_pct", Value.num (if Δ ≠ 0 then
          safeFloatV (Row.getD d "delta" (.num 0)) / Δ * 100 else 0))] := by
    simp
  rw [hsplit, Row.get_append_single_ne _ _ _ _ (by decide),
    Row.get_append_single_ne _ _ _ _ (by decide)]
  rfl

/-- The orchestrator's ranking loop, fused over the per-dimension fetched
row sets. -/
theorem filterMap_primary (q : QueryFn) (cw pw : Date × Date) (metric : String) (Δ : ℚ)
    (dims : List String) (h : ¬ |Δ| < 1/100) :
    dims.filterMap (fun dim =>
      match fetchedData q [dim] cw, fetchedData q [dim] pw with
      | some cData, some pData =>
        some (⟨dim,
          pyRound 1 (min (if Δ ≠ 0 then
            ((calculate_variance_explained Δ (compute_deltas cData pData metric [dim]) "delta").map
              (fun d => |safeFloatV (Row.getD d "delta" (.num 0))|)).foldl max 0 / |Δ| * 100
            else 0) 100),
          pyRound 1 (min (if Δ ≠ 0 then
            ((calculate_variance_explained Δ (compute_deltas cData pData metric [dim]) "delta").map
              (fun d => |safeFloatV (Row.getD d "delta" (.num 0))|)).foldl max 0 / |Δ| * 100
            else 0) 100), none⟩ : ImpactEntry)
      | _, _ => none) =
    (fetchedPerDim q dims cw pw).map (fun e =>
      ⟨e.1,
        pyRound 1 (min (((compute_deltas e.2.1 e.2.2 metric [e.1]).map
          (fun d => |safeFloatV (Row.getD d "delta" (.num 0))|)).foldl max 0 / |Δ| * 100) 100),
        pyRound 1 (min (((compute_deltas e.2.1 e.2.2 metric [e.1]).map
          (fun d => |safeFloatV (Row.getD d "delta" (.num 0))|)).foldl max 0 / |Δ| * 100) 100),
        none⟩) := by
  have hΔ : Δ ≠ 0 := by
    intro h0
    rw [h0] at h
    norm_num at h
  unfold fetchedPerDim
  induction dims with
  | nil => rfl
  | cons dd ds ih =>
    rw [List.filterMap_cons, List.filterMap_cons]
    cases hc : fetchedData q [dd] cw with
    | none =>
      exact ih
    | some cD =>
      cases hp : fetchedData q [dd] pw with
      | none =>
        exact ih
      | some pD =>
        simp only [List.map_cons]
        rw [ih]
        congr 1
        rw [if_pos hΔ, enriched_foldl_max Δ _ h]

/-- C1, amended: past the totals and the short-circuit, the orchestrator's
`dimension_impacts` are *not* the §4.5 `rank_dimensions_by_impact` output:
each fetched dimension is scored by its largest single per-value `|delta|`
as a share of `|total_delta|` (capped at 100, rounded to one decimal, used
for both `variance_explained_pct` and `impact_score`), sorted descending,
and no entry carries a `total_movement` field. -/
theorem decompose_impacts_primary (q : QueryFn) (today : Date) (metric period : String)
    (dims? : Option (List String)) (catalog : Option (List (String × Bool)))
    (maxItems : ℕ) (minThresh : ℚ) (cw pw : Date × Date) (dims : List String) (cv pv : ℚ)
    (h1 : period_date_ranges period today = .ok (cw, pw))
    (h2 : resolveDimensions dims? catalog = some dims)
    (h3 : dims ≠ [])
    (h4 : (q [] cw).ok = true) (h5 : (q [] cw).data ≠ [])
    (h6 : totalOf (q [] cw).data metric = some cv)
    (h7 : (q [] pw).ok = true) (h8 : (q [] pw).data ≠ [])
    (h9 : totalOf (q [] pw).data metric = some pv)
    (h10 : ¬ |cv - pv| < 1/100) :
    (decompose_metric_change q today metric period dims? catalog maxItems
        minThresh).dimension_impacts =
      primaryImpactRanking (fetchedPerDim q dims cw pw) metric (cv - pv) ∧
    ∀ e ∈ (decompose_metric_change q today metric period dims? catalog maxItems
        minThresh).dimension_impacts, e.total_movement = none := by
  rw [decompose_eq_core q today metric period dims? catalog maxItems minThresh cw pw dims cv pv
    h1 h2 h3 h4 h5 h6 h7 h8 h9]
  rw [decomposeCore_impacts q metric period cw pw dims cv pv maxItems minThresh h10]
  constructor
  · rw [filterMap_primary q cw pw metric (cv - pv) dims h10]
    rfl
  · intro e he
    have he' := ((List.perm_insertionSort impactDesc _).mem_iff).mp he
    obtain ⟨dim, _, hf⟩ := List.mem_filterMap.mp he'
    cases hcw : fetchedData q [dim] cw with
    | none => rw [hcw] at hf; exact Option.noConfusion hf
    | some cData =>
      cases hpw : fetchedData q [dim] pw with
      | none => rw [hcw, hpw] at hf; exact Option.noConfusion hf
      | some pData =>
        rw [hcw, hpw] at hf
        obtain rfl := Option.some.inj hf
        rfl

/-- A query function exhibiting the C1 divergence: total change `6`, one
dimension `d` whose two values move by `3` each. -/
def cexQuery : QueryFn := fun dims w =>
  if dims = [] then
    (if w.1.month = 3 then ⟨true, [[("m", Value.num 6)]], none⟩
     else ⟨true, [[("m", Value.num 0)]], none⟩)
  else
    (if w.1.month = 3 then
      ⟨true, [[("d", Value.str "a"), ("m", Value.num 3)],
              [("d", Value.str "b"), ("m", Value.num 3)]], none⟩
     else
      ⟨true, [[("d", Value.str "a"), ("m", Value.num 0)],
              [("d", Value.str "b"), ("m", Value.num 0)]], none⟩)

/-- C1 counterexample: on `cexQuery` the orchestrator reports the dimension
at score `50` (largest single contributor `3` of `6`) with no
`total_movement`, while `rank_dimensions_by_impact` on the same fetched
rows reports `100` (total movement `6` of `6`) with `total_movement = 6` —
the claimed refinement fails. -/
theorem decompose_impacts_ne_rank_dimensions :
    (decompose_metric_change cexQuery ⟨2024, 3, 15⟩ "m" "month" (some ["d"]) none
        10 (1/20)).dimension_impacts ≠
      rank_dimensions_by_impact
        (cexQuery ["d"] (⟨2024, 3, 1⟩, ⟨2024, 3, 15⟩)).data
        (cexQuery ["d"] (⟨2024, 2, 1⟩, ⟨2024, 2, 15⟩)).data
        "m" ["d"] 6 := by
  have hL : (decompose_metric_change cexQuery ⟨2024, 3, 15⟩ "m" "month" (some ["d"]) none
      10 (1/20)).dimension_impacts = [⟨"d", 50, 50, none⟩] := by
    with_unfolding_all rfl
  have hR : rank_dimensions_by_impact
      (cexQuery ["d"] (⟨2024, 3, 1⟩, ⟨2024, 3, 15⟩)).data
      (cexQuery ["d"] (⟨2024, 2, 1⟩, ⟨2024, 2, 15⟩)).data
      "m" ["d"] 6 = [⟨"d", 100, 100, some 6⟩] := by
    with_unfolding_all rfl
  rw [hL, hR]
  simp [ImpactEntry.mk.injEq]

/-- C1 witness: on `cexQuery` the amended characterisation holds. -/
theorem decompose_impacts_primary_witness :
    (decompose_metric_change cexQuery ⟨2024, 3, 15⟩ "m" "month" (some ["d"]) none
        10 (1/20)).dimension_impacts =
      primaryImpactRanking
        (fetchedPerDim cexQuery ["d"] (⟨2024, 3, 1⟩, ⟨2024, 3, 15⟩) (⟨2024, 2, 1⟩, ⟨2024, 2, 15⟩))
        "m" ((6 : ℚ) - 0) ∧
    ∀ e ∈ (decompose_metric_change cexQuery ⟨2024, 3, 15⟩ "m" "month" (some ["d"]) none
        10 (1/20)).dimension_impacts, e.total_movement = none :=
  decompose_impacts_primary cexQuery ⟨2024, 3, 15⟩ "m" "month" (some ["d"]) none 10 (1/20)
    (⟨2024, 3, 1⟩, ⟨2024, 3, 15⟩) (⟨2024, 2, 1⟩, ⟨2024, 2, 15⟩) ["d"] 6 0
    (by with_unfolding_all rfl) rfl (by simp) rfl (by simp [cexQuery])
    (by with_unfolding_all rfl) rfl (by simp [cexQuery]) (by with_unfolding_all rfl)
    (by norm_num)

end Falk
